import Mathlib

/-!
# Verification of the user reconciliation logic of nttmcp.mcp

Shallow embedding of plugins/modules/user.py: the candidate-record
construction of compare_user, the role comparison of compare_user_roles,
and the create/update/delete orchestration of main for state=present and
state=absent.  Python dictionaries holding API user objects are embedded
as association lists over a JSON value type; module parameters become a
structure of Option fields, with Python truthiness made explicit.

The generic diff routine compare_json lives in module_utils/utils.py which
is not part of this excerpt; it is modelled from the specification (see
its doc comment).
-/

set_option maxHeartbeats 1000000

namespace UserModule

/-- JSON-like values as held in the Python user dictionaries. -/
inductive JVal where
  | null
  | str (s : String)
  | num (n : Int)
  | bool (b : Bool)
  | list (xs : List JVal)
  | obj (fields : List (String × JVal))
deriving Repr, Inhabited

/-- Structural equality of JSON values (Python == on these shapes). -/
def JVal.beq : JVal → JVal → Bool
  | .null, .null => true
  | .str a, .str b => a == b
  | .num a, .num b => a == b
  | .bool a, .bool b => a == b
  | .list [], .list [] => true
  | .list (x :: xs), .list (y :: ys) => JVal.beq x y && JVal.beq (.list xs) (.list ys)
  | .obj [], .obj [] => true
  | .obj ((k1, v1) :: xs), .obj ((k2, v2) :: ys) =>
      k1 == k2 && JVal.beq v1 v2 && JVal.beq (.obj xs) (.obj ys)
  | _, _ => false

/-- Python truthiness of a JSON value (None, empty string, 0, empty
list and empty dict are falsy). -/
def JVal.truthy : JVal → Bool
  | .null => false
  | .str s => !s.isEmpty
  | .num n => !(n == 0)
  | .bool b => b
  | .list xs => !xs.isEmpty
  | .obj xs => !xs.isEmpty

/-- A Python dictionary with string keys, in insertion order. -/
abbrev Rec := List (String × JVal)

/-- dict.get: the value stored at key k, if any. -/
def lookup (k : String) : Rec → Option JVal
  | [] => none
  | (k', v) :: r => if k' == k then some v else lookup k r

/-- dict item assignment: overwrite in place, or append a new entry. -/
def setKey (r : Rec) (k : String) (v : JVal) : Rec :=
  match r with
  | [] => [(k, v)]
  | (k', v') :: t => if k' == k then (k', v) :: t else (k', v') :: setKey t k v

/-- dict.pop: remove the entry stored at key k. -/
def popKey (r : Rec) (k : String) : Rec :=
  r.filter (fun kv => !(kv.1 == k))

/-- new_user[k][fk] = v on a nested dictionary.  In Python this raises a
TypeError when the value at k is not a dictionary; the embedding leaves
the record unchanged there, and theorems about the nested phone update
assume the observed phone value, when truthy, is an object. -/
def setObjField (r : Rec) (k fk : String) (v : JVal) : Rec :=
  match lookup k r with
  | some (.obj fs) => setKey r k (.obj (setKey fs fk v))
  | _ => r

/-- The keys of a record. -/
def keysOf (r : Rec) : List String := r.map Prod.fst

/-- Result of compare_json as consumed by user.py: the changes flag and
the set of field names whose values differ (the Delta is abstracted to
its key set; user.py only reads the changes flag). -/
structure CompareResult where
  changes : Bool
  deltaKeys : List String
deriving Repr, DecidableEq

/-- Set-likeness comparison used for the role field: two lists are equal
when they hold the same elements regardless of order. -/
def jcontains (xs : List JVal) (v : JVal) : Bool :=
  xs.any (fun x => JVal.beq x v)

/-- Unordered comparison for the role field; on non-lists it falls back
to structural equality. -/
def roleSetEq : JVal → JVal → Bool
  | .list xs, .list ys => xs.all (jcontains ys) && ys.all (jcontains xs)
  | a, b => JVal.beq a b

/-- Whether the field k differs between the new and the old record.
A null value in the new record denotes an unset parameter and is never
compared (spec section 9: None meaning unset; invariant: fields absent
from the desired state never appear in a Delta).  The role field is
compared as an unordered set (spec section 3, FieldSpec); all other
values compare by deep equality. -/
def fieldChanged (k : String) : Option JVal → Option JVal → Bool
  | none, none => false
  | none, some _ => true
  | some .null, _ => false
  | some _, none => true
  | some v, some w => if k == "role" then !(roleSetEq v w) else !(JVal.beq v w)

/-- Modelled from the spec: compare_json (module_utils/utils.py, not in
this excerpt).  Per spec section 3 the Delta maps each field name whose
value differs between the candidate record and the observed record to
its old and new values, the role field is compared as an unordered set
of strings, a field whose desired value is unset (None) never appears,
and the changes flag equals Delta-is-non-empty. -/
def compare_json (a b : Rec) : CompareResult :=
  let ks := (keysOf a ++ keysOf b).dedup
  let ds := ks.filter (fun k => fieldChanged k (lookup k a) (lookup k b))
  ⟨!ds.isEmpty, ds⟩

/-- The module parameters of user.py (argument_spec of main); None is
embedded as none. -/
structure Params where
  username : Option String
  my_user : Bool
  password : Option String
  new_password : Option String
  roles : Option (List String)
  fullname : Option String
  firstname : Option String
  lastname : Option String
  email : Option String
  phone_country_code : Option Int
  phone : Option Int
  remove_phone : Bool
  department : Option String
  custom_1 : Option String
  custom_2 : Option String
  state : String

/-- Python truthiness of an optional string parameter. -/
def truthyS : Option String → Bool
  | none => false
  | some s => !s.isEmpty

/-- Python truthiness of an optional integer parameter. -/
def truthyI : Option Int → Bool
  | none => false
  | some n => !(n == 0)

/-- Python truthiness of an optional list parameter. -/
def truthyL : Option (List String) → Bool
  | none => false
  | some l => !l.isEmpty

/-- One conditional string-parameter overwrite of compare_user:
if the parameter is truthy the key is set to its value. -/
def strStep (o : Option String) (key : String) (r : Rec) : Rec :=
  if truthyS o then setKey r key (.str (o.getD "")) else r

/-- The role overwrite of compare_user (lines 436-438): only under
full_compare, and only when the roles parameter is truthy. -/
def roleStep (p : Params) (full : Bool) (r : Rec) : Rec :=
  if full && truthyL p.roles then
    setKey r "role" (.list ((p.roles.getD []).map .str))
  else r

/-- Lines 443-446 of compare_user: a truthy phone number is written as a
string into the nested phone object, which is created empty first when
the current phone value is falsy. -/
def phoneNumStep (p : Params) (r : Rec) : Rec :=
  if truthyI p.phone then
    setObjField
      (if ((lookup "phone" r).getD .null).truthy then r
       else setKey r "phone" (.obj []))
      "phone" "number" (.str (toString (p.phone.getD 0)))
  else r

/-- Lines 447-449 of compare_user: a truthy country code is written as a
string into the phone object when that object is truthy at this point. -/
def phonePccStep (p : Params) (r : Rec) : Rec :=
  if truthyI p.phone_country_code then
    if ((lookup "phone" r).getD .null).truthy then
      setObjField r "phone" "countryCode"
        (.str (toString (p.phone_country_code.getD 0)))
    else r
  else r

/-- The phone handling of compare_user (lines 439-449): remove_phone
pops a truthy phone entry and skips the desired phone values entirely;
otherwise the number and country-code writes run in order. -/
def phoneStep (p : Params) (r : Rec) : Rec :=
  if p.remove_phone then
    if ((lookup "phone" r).getD .null).truthy then popKey r "phone" else r
  else
    phonePccStep p (phoneNumStep p r)

/-- The name, email and role overwrites of compare_user (lines 428-438),
applied in source order from the inside out. -/
def nameSteps (p : Params) (user : Rec) (full_compare : Bool) : Rec :=
  roleStep p full_compare
    (strStep p.email "emailAddress"
      (strStep p.firstname "firstName"
        (strStep p.lastname "lastName"
          (strStep p.fullname "fullName" user))))

/-- The candidate merged record new_user built by compare_user
(lines 426-455) from the observed user and the truthy parameters,
applied in source order from the inside out. -/
def newUserOf (p : Params) (user : Rec) (full_compare : Bool) : Rec :=
  strStep p.custom_2 "customDefined2"
    (strStep p.custom_1 "customDefined1"
      (strStep p.department "department"
        (phoneStep p (nameSteps p user full_compare))))

/-- compare_user (lines 417-461): diff of the candidate record against
the observed user.  The check-mode exit inside the source function is
modelled at its call sites in runPresent. -/
def compare_user (p : Params) (user : Rec) (full_compare : Bool) : CompareResult :=
  compare_json (newUserOf p user full_compare) user

/-- The roles parameter as the JSON value Python passes to compare_json
inside compare_user_roles: None stays None, a list becomes a list of
strings. -/
def rolesJV : Option (List String) → JVal
  | none => .null
  | some l => .list (l.map .str)

/-- compare_user_roles (lines 464-473): diff of one-key records holding
the desired roles parameter and the observed role value. -/
def compare_user_roles (p : Params) (roles : JVal) : CompareResult :=
  compare_json [("role", rolesJV p.roles)] [("role", roles)]

/-- The mutating API-client calls user.py can issue, with the arguments
it passes (reads such as get_user are inputs of the run functions, not
recorded). -/
inductive WriteCall where
  | createUserC (username password : Option String) (roles : Option (List String))
      (fullname firstname lastname email : Option String)
      (phone phone_country_code : Option Int)
      (department custom_1 custom_2 : Option String)
  | changeUserPasswordC (userName : Option JVal) (password : Option String)
  | setUserRolesC (username : Option String) (roles : Option (List String))
  | updateUserC (userName : Option JVal)
      (fullname firstname lastname email : Option String)
      (phone phone_country_code : Option Int)
      (department custom_1 custom_2 : Option String)
  | removeUserC (username : Option String)
deriving Repr

/-- Whether a write call is a user creation. -/
def WriteCall.isCreate : WriteCall → Bool
  | .createUserC .. => true
  | _ => false

/-- Whether a write call is a role assignment. -/
def WriteCall.isSetRoles : WriteCall → Bool
  | .setUserRolesC .. => true
  | _ => false

/-- Position of a write call in the fixed apply order of main for one
existing user: password change, then role update, then payload update. -/
def kindRank : WriteCall → Nat
  | .changeUserPasswordC .. => 0
  | .setUserRolesC .. => 1
  | .updateUserC .. => 2
  | .createUserC .. => 3
  | .removeUserC .. => 4

/-- How one invocation of the module ends (exit_json and fail_json;
interpolated usernames are elided from the messages). -/
inductive ExitResult where
  | exitMsg (msg : String)
  | exitChanged (changed : Bool)
  | exitCompare (r : CompareResult)
  | failJson (msg : String)
deriving Repr, DecidableEq

/-- The update_user call (lines 324-345): the payload is the raw module
parameters; the username comes from the user record being updated. -/
def updateUserCall (p : Params) (user : Rec) : WriteCall :=
  .updateUserC (lookup "userName" user) p.fullname p.firstname p.lastname
    p.email p.phone p.phone_country_code p.department p.custom_1 p.custom_2

/-- The state=present branch of main (lines 534-556) together with
create_user (lines 279-321): given the parameters, the check-mode flag,
the looked-up user (None when absent) and the user record re-fetched
after a role update, the ordered list of write calls issued and the exit
outcome.  The roles type check of create_user cannot fail in this typed
embedding (argument_spec declares roles as a list). -/
def runPresent (p : Params) (checkMode : Bool) (observed : Option Rec)
    (refetched : Rec) : List WriteCall × ExitResult :=
  match observed with
  | none =>
      if checkMode then
        ([], .exitMsg "A new user with the username will be created")
      else
        if p.username.isNone || p.password.isNone || p.fullname.isNone
            || p.firstname.isNone || p.lastname.isNone || p.email.isNone then
          ([], .failJson "A valid value for username, password, fullname, firstname, lastname and email are required")
        else if p.phone.isSome && p.phone_country_code.isNone then
          ([], .failJson "phone_country_code is required when a value for phone is present")
        else
          ([.createUserC p.username p.password p.roles p.fullname p.firstname
              p.lastname p.email p.phone p.phone_country_code p.department
              p.custom_1 p.custom_2],
           .exitChanged true)
  | some user =>
      let pwCalls : List WriteCall :=
        if truthyS p.new_password then
          [.changeUserPasswordC (lookup "userName" user) p.new_password]
        else []
      let fullCmp := compare_user p user true
      if checkMode then
        (pwCalls, .exitCompare fullCmp)
      else
        let roleCmp := compare_user_roles p ((lookup "role" user).getD .null)
        if roleCmp.changes then
          let calls := pwCalls ++ [WriteCall.setUserRolesC p.username p.roles]
          let cmp2 := compare_user p refetched false
          if cmp2.changes then
            (calls ++ [updateUserCall p refetched], .exitChanged true)
          else (calls, .exitChanged true)
        else
          let cmp2 := compare_user p user false
          if cmp2.changes then
            (pwCalls ++ [updateUserCall p user], .exitChanged true)
          else (pwCalls, .exitChanged (truthyS p.new_password))

/-- The state=absent branch of main (lines 557-563) together with
delete_user (lines 397-414). -/
def runAbsent (p : Params) (checkMode : Bool) (observed : Option Rec) :
    List WriteCall × ExitResult :=
  match observed with
  | none => ([], .exitMsg "User not found")
  | some _ =>
      if checkMode then
        ([], .exitMsg "An existing user was found and will be removed")
      else if p.username.isNone then
        ([], .failJson "A valid username is required")
      else
        ([.removeUserC p.username], .exitChanged true)

/-! ## Concrete inputs used to instantiate the theorems -/

/-- Parameters with only a username, state=present. -/
def pBase : Params :=
  ⟨some "u", false, none, none, none, none, none, none, none, none, none,
    false, none, none, none, "present"⟩

/-- Desired roles in one order. -/
def pRoles : Params :=
  ⟨some "u", false, none, none, some ["b", "a"], none, none, none, none,
    none, none, false, none, none, none, "present"⟩

/-- Observed user carrying the same roles in the other order. -/
def uRoles : Rec :=
  [("userName", .str "u"), ("role", .list [.str "a", .str "b"])]

/-- Parameters requesting a password change. -/
def pNewPw : Params :=
  ⟨some "joey", false, none, some "x", none, none, none, none, none, none,
    none, false, none, none, none, "present"⟩

/-- A minimal observed user. -/
def uJoey : Rec := [("userName", .str "joey")]

/-- Valid creation parameters. -/
def pCreate : Params :=
  ⟨some "joey", false, some "pw", none, some ["network"], some "Joey JoeJoe",
    some "Joey", some "JoeJoe", some "j@x.com", none, none, false, none,
    none, none, "present"⟩

/-- Parameters matching uFull exactly. -/
def pSame : Params :=
  ⟨some "u", false, none, none, some ["network", "server"], some "Joey",
    none, none, none, some 1, some 555, false, none, none, none, "present"⟩

/-- Observed user with name, roles and phone. -/
def uFull : Rec :=
  [("userName", .str "u"), ("fullName", .str "Joey"),
   ("role", .list [.str "network", .str "server"]),
   ("phone", .obj [("number", .str "555"), ("countryCode", .str "1")])]

/-- Observed user carrying an email address. -/
def uEmail : Rec := [("userName", .str "u"), ("emailAddress", .str "e@x.com")]

/-- Creation parameters missing the email. -/
def pNoEmail : Params :=
  ⟨some "joey", false, some "pw", none, none, some "Joey JoeJoe",
    some "Joey", some "JoeJoe", none, none, none, false, none, none, none,
    "present"⟩

/-- Parameters without a username, state=absent. -/
def pNoUser : Params :=
  ⟨none, false, none, none, none, none, none, none, none, none, none,
    false, none, none, none, "absent"⟩

/-- Parameters asking for phone removal while also giving a phone. -/
def pRemovePhone : Params :=
  ⟨some "u", false, none, none, none, none, none, none, none, some 1,
    some 5, true, none, none, none, "present"⟩

/-- Observed user whose phone value is a present but empty object. -/
def uEmptyPhone : Rec := [("userName", .str "u"), ("phone", .obj [])]

/-- Parameters carrying a fresh phone number and country code. -/
def pPhone : Params :=
  ⟨some "u", false, none, none, none, none, none, none, none, some 61,
    some 12345, false, none, none, none, "present"⟩

/-- Parameters with an explicitly empty role list and a falsy email. -/
def pFalsy : Params :=
  ⟨some "u", false, none, none, some [], none, none, none, some "", none,
    some 0, false, none, none, none, "present"⟩

/-- Observed user with one role. -/
def uOneRole : Rec := [("userName", .str "u"), ("role", .list [.str "network"])]

/-! ## Basic lemmas about the embedded operations -/

theorem JVal.beq_refl : ∀ v : JVal, JVal.beq v v = true
  | .null => by simp [JVal.beq]
  | .str a => by simp [JVal.beq]
  | .num a => by simp [JVal.beq]
  | .bool b => by simp [JVal.beq]
  | .list [] => by simp [JVal.beq]
  | .list (x :: xs) => by
      rw [JVal.beq, JVal.beq_refl x, JVal.beq_refl (.list xs)]
      rfl
  | .obj [] => by simp [JVal.beq]
  | .obj ((k, v) :: xs) => by
      rw [JVal.beq, JVal.beq_refl v, JVal.beq_refl (.obj xs)]
      simp

theorem jcontains_of_mem {xs : List JVal} {v : JVal} (h : v ∈ xs) :
    jcontains xs v = true := by
  simp only [jcontains, List.any_eq_true]
  exact ⟨v, h, JVal.beq_refl v⟩

theorem roleSetEq_refl (v : JVal) : roleSetEq v v = true := by
  cases v with
  | list xs =>
      simp only [roleSetEq, Bool.and_eq_true, List.all_eq_true]
      exact ⟨fun x hx => jcontains_of_mem hx, fun x hx => jcontains_of_mem hx⟩
  | null => simp [roleSetEq, JVal.beq]
  | str s => simp [roleSetEq, JVal.beq]
  | num n => simp [roleSetEq, JVal.beq]
  | bool b => simp [roleSetEq, JVal.beq]
  | obj fs => exact JVal.beq_refl (.obj fs)

theorem fieldChanged_self (k : String) : ∀ ov : Option JVal, fieldChanged k ov ov = false
  | none => rfl
  | some v => by
      have hb := JVal.beq_refl v
      have hr := roleSetEq_refl v
      cases v <;> simp_all [fieldChanged]

theorem lookup_setKey (k k' : String) (v : JVal) (r : Rec) :
    lookup k (setKey r k' v) = if k' = k then some v else lookup k r := by
  induction r with
  | nil => by_cases h : k' = k <;> simp [setKey, lookup, h]
  | cons hd tl ih =>
      obtain ⟨a, b⟩ := hd
      by_cases h1 : a = k' <;> by_cases h2 : k' = k <;>
        simp_all [setKey, lookup]

theorem setKey_eq_self {r : Rec} {k : String} {v : JVal}
    (h : lookup k r = some v) : setKey r k v = r := by
  induction r with
  | nil => simp [lookup] at h
  | cons hd tl ih =>
      obtain ⟨a, b⟩ := hd
      by_cases h2 : a = k
      · subst h2
        simp_all [lookup, setKey]
      · simp_all [lookup, setKey]

theorem lookup_popKey (k k' : String) (r : Rec) :
    lookup k (popKey r k') = if k' = k then none else lookup k r := by
  induction r with
  | nil => by_cases h : k' = k <;> simp [popKey, lookup, h]
  | cons hd tl ih =>
      obtain ⟨a, b⟩ := hd
      by_cases h1 : a = k' <;> by_cases h2 : k' = k <;>
        simp_all [popKey, lookup, List.filter_cons]

theorem lookup_setObjField_ne (fk : String) (v : JVal) (r : Rec)
    {k k' : String} (h : k' ≠ k) :
    lookup k (setObjField r k' fk v) = lookup k r := by
  unfold setObjField
  cases hl : lookup k' r with
  | none => rfl
  | some w => cases w <;> simp_all [lookup_setKey]

theorem lookup_eq_none_of_not_mem_keys {r : Rec} {k : String}
    (h : k ∉ keysOf r) : lookup k r = none := by
  induction r with
  | nil => rfl
  | cons hd tl ih =>
      obtain ⟨a, b⟩ := hd
      simp only [keysOf, List.map_cons, List.mem_cons] at h
      push_neg at h
      have hne : a ≠ k := Ne.symm h.1
      simp only [lookup, hne, beq_iff_eq, if_neg]
      exact ih (by simpa [keysOf] using h.2)

/-! ## Lemmas about the compare_user pipeline steps -/

theorem lookup_strStep_ne (o : Option String) (r : Rec) {key k : String}
    (h : key ≠ k) :
    lookup k (strStep o key r) = lookup k r := by
  unfold strStep
  split
  · simp [lookup_setKey, h]
  · rfl

theorem strStep_of_falsy {o : Option String} (key : String) (r : Rec)
    (h : truthyS o = false) : strStep o key r = r := by
  simp [strStep, h]

theorem strStep_keep {o : Option String} {key : String} {r : Rec}
    (h : ∀ s, o = some s → s ≠ "" → lookup key r = some (.str s)) :
    strStep o key r = r := by
  unfold strStep
  cases ho : o with
  | none => simp [truthyS]
  | some s =>
      cases hs : s.isEmpty with
      | true => simp [truthyS, hs]
      | false =>
          have hne : s ≠ "" := fun he => by rw [he] at hs; exact absurd hs (by decide)
          have hl := h s ho hne
          simp only [truthyS, hs, Bool.not_false, if_pos, Option.getD_some]
          exact setKey_eq_self hl

theorem lookup_strStep_skip {o : Option String} {key k : String} (r : Rec)
    (h : key ≠ k ∨ truthyS o = false) :
    lookup k (strStep o key r) = lookup k r := by
  rcases h with h | h
  · exact lookup_strStep_ne o r h
  · rw [strStep_of_falsy key r h]

theorem lookup_roleStep_skip {p : Params} {full : Bool} {k : String} (r : Rec)
    (h : "role" ≠ k ∨ truthyL p.roles = false) :
    lookup k (roleStep p full r) = lookup k r := by
  unfold roleStep
  rcases h with h | h
  · split
    · simp [lookup_setKey, h]
    · rfl
  · simp [h]

theorem lookup_phoneNumStep_ne (p : Params) (r : Rec) {k : String}
    (h : "phone" ≠ k) :
    lookup k (phoneNumStep p r) = lookup k r := by
  unfold phoneNumStep
  split
  · rw [lookup_setObjField_ne _ _ _ h]
    split
    · rfl
    · simp [lookup_setKey, h]
  · rfl

theorem lookup_phonePccStep_ne (p : Params) (r : Rec) {k : String}
    (h : "phone" ≠ k) :
    lookup k (phonePccStep p r) = lookup k r := by
  unfold phonePccStep
  split
  · split
    · rw [lookup_setObjField_ne _ _ _ h]
    · rfl
  · rfl

theorem lookup_phoneStep_ne (p : Params) (r : Rec) {k : String}
    (h : "phone" ≠ k) :
    lookup k (phoneStep p r) = lookup k r := by
  unfold phoneStep
  split
  · split
    · simp [lookup_popKey, h]
    · rfl
  · rw [lookup_phonePccStep_ne p _ h, lookup_phoneNumStep_ne p _ h]

theorem phoneStep_of_falsy {p : Params} (r : Rec)
    (h1 : p.remove_phone = false) (h2 : truthyI p.phone = false)
    (h3 : truthyI p.phone_country_code = false) :
    phoneStep p r = r := by
  simp [phoneStep, phoneNumStep, phonePccStep, h1, h2, h3]

theorem lookup_phoneStep_skip {p : Params} {k : String} (r : Rec)
    (h : "phone" ≠ k ∨
      (p.remove_phone = false ∧ truthyI p.phone = false ∧
        truthyI p.phone_country_code = false)) :
    lookup k (phoneStep p r) = lookup k r := by
  rcases h with h | ⟨h1, h2, h3⟩
  · exact lookup_phoneStep_ne p r h
  · rw [phoneStep_of_falsy r h1 h2 h3]

/-! ## The candidate record leaves untouched fields alone -/

/-- Whether compare_user can write the key k of the candidate record at
all, given the parameters: the key must belong to one of the parameter
overwrites and that parameter must be truthy. -/
def touchesKey (p : Params) (k : String) : Bool :=
  (k == "fullName" && truthyS p.fullname)
  || (k == "lastName" && truthyS p.lastname)
  || (k == "firstName" && truthyS p.firstname)
  || (k == "emailAddress" && truthyS p.email)
  || (k == "role" && truthyL p.roles)
  || (k == "phone" && (p.remove_phone || truthyI p.phone || truthyI p.phone_country_code))
  || (k == "department" && truthyS p.department)
  || (k == "customDefined1" && truthyS p.custom_1)
  || (k == "customDefined2" && truthyS p.custom_2)

theorem lookup_newUserOf_untouched (p : Params) (u : Rec) (full : Bool)
    {k : String} (h : touchesKey p k = false) :
    lookup k (newUserOf p u full) = lookup k u := by
  simp only [touchesKey, Bool.or_eq_false_iff, Bool.and_eq_false_iff,
    beq_eq_false_iff_ne] at h
  obtain ⟨⟨⟨⟨⟨⟨⟨⟨h1, h2⟩, h3⟩, h4⟩, h5⟩, h6⟩, h7⟩, h8⟩, h9⟩ := h
  have hsym : ∀ (a : String), k ≠ a → a ≠ k := fun a ha => Ne.symm ha
  unfold newUserOf nameSteps
  rw [lookup_strStep_skip _ (h9.imp (hsym _) id)]
  rw [lookup_strStep_skip _ (h8.imp (hsym _) id)]
  rw [lookup_strStep_skip _ (h7.imp (hsym _) id)]
  rw [lookup_phoneStep_skip _ (h6.imp (hsym _)
    (fun hh => ⟨hh.1.1, hh.1.2, hh.2⟩))]
  rw [lookup_roleStep_skip _ (h5.imp (hsym _) id)]
  rw [lookup_strStep_skip _ (h4.imp (hsym _) id)]
  rw [lookup_strStep_skip _ (h3.imp (hsym _) id)]
  rw [lookup_strStep_skip _ (h2.imp (hsym _) id)]
  rw [lookup_strStep_skip _ (h1.imp (hsym _) id)]

/-! ## compare_json lemmas -/

theorem compare_json_deltaKeys_not_mem {a b : Rec} {k : String}
    (h : fieldChanged k (lookup k a) (lookup k b) = false) :
    k ∉ (compare_json a b).deltaKeys := by
  intro hm
  simp only [compare_json, List.mem_filter] at hm
  rw [h] at hm
  exact absurd hm.2 (by simp)

theorem compare_json_self (r : Rec) : compare_json r r = ⟨false, []⟩ := by
  unfold compare_json
  have : (keysOf r ++ keysOf r).dedup.filter
      (fun k => fieldChanged k (lookup k r) (lookup k r)) = [] := by
    apply List.filter_eq_nil_iff.mpr
    intro k _
    simp [fieldChanged_self]
  simp [this]

/-! ## The candidate record equals the observed user when every truthy
parameter matches the observed value -/

theorem roleStep_keep {p : Params} {r : Rec} (full : Bool)
    (h : ∀ l, p.roles = some l → lookup "role" r = some (.list (l.map .str))) :
    roleStep p full r = r := by
  unfold roleStep
  cases hr : p.roles with
  | none => simp [truthyL]
  | some l =>
      cases l with
      | nil => simp [truthyL]
      | cons x xs =>
          split
          · exact setKey_eq_self (by simpa using h (x :: xs) hr)
          · rfl

theorem phoneNumStep_keep {p : Params} {r : Rec}
    (hph : ∀ n, p.phone = some n → n ≠ 0 →
      ∃ fs, lookup "phone" r = some (.obj fs) ∧ fs ≠ [] ∧
        lookup "number" fs = some (.str (toString n))) :
    phoneNumStep p r = r := by
  unfold phoneNumStep
  cases hp : p.phone with
  | none => simp [truthyI]
  | some n =>
      by_cases hn : n = 0
      · simp [truthyI, hn]
      · obtain ⟨fs, hfs, hfs0, hnum⟩ := hph n hp hn
        have htr : ((lookup "phone" r).getD .null).truthy = true := by
          simp [hfs, JVal.truthy, hfs0]
        have hti : truthyI (some n) = true := by
          simp [truthyI, hn]
        rw [hti, if_pos rfl, if_pos htr]
        unfold setObjField
        rw [hfs]
        simp only [Option.getD_some]
        rw [setKey_eq_self hnum]
        exact setKey_eq_self hfs

theorem phonePccStep_keep {p : Params} {r : Rec}
    (hpc : ∀ c, p.phone_country_code = some c → c ≠ 0 →
      ∀ fs, lookup "phone" r = some (.obj fs) → fs ≠ [] →
        lookup "countryCode" fs = some (.str (toString c)))
    (hwt : ∀ v, lookup "phone" r = some v → v.truthy = true →
      ∃ fs, v = .obj fs) :
    phonePccStep p r = r := by
  unfold phonePccStep
  cases hc : p.phone_country_code with
  | none => simp [truthyI]
  | some c =>
      by_cases hcz : c = 0
      · simp [truthyI, hcz]
      · have hti : truthyI (some c) = true := by simp [truthyI, hcz]
        rw [hti, if_pos rfl]
        cases hl : lookup "phone" r with
        | none => simp [JVal.truthy]
        | some v =>
            cases htv : v.truthy with
            | false => simp [hl, htv]
            | true =>
                obtain ⟨fs, rfl⟩ := hwt v hl htv
                have hfs0 : fs ≠ [] := by
                  simpa [JVal.truthy] using htv
                have hcc := hpc c hc hcz fs hl hfs0
                simp only [hl, Option.getD_some, htv, if_pos]
                unfold setObjField
                rw [hl]
                simp only [Option.getD_some]
                rw [setKey_eq_self hcc]
                exact setKey_eq_self hl

theorem phoneStep_keep {p : Params} {r : Rec}
    (h1 : p.remove_phone = false)
    (hph : ∀ n, p.phone = some n → n ≠ 0 →
      ∃ fs, lookup "phone" r = some (.obj fs) ∧ fs ≠ [] ∧
        lookup "number" fs = some (.str (toString n)))
    (hpc : ∀ c, p.phone_country_code = some c → c ≠ 0 →
      ∀ fs, lookup "phone" r = some (.obj fs) → fs ≠ [] →
        lookup "countryCode" fs = some (.str (toString c)))
    (hwt : ∀ v, lookup "phone" r = some v → v.truthy = true →
      ∃ fs, v = .obj fs) :
    phoneStep p r = r := by
  unfold phoneStep
  rw [h1]
  simp only [Bool.false_eq_true, if_false]
  rw [phoneNumStep_keep hph, phonePccStep_keep hpc hwt]

theorem newUserOf_keep {p : Params} {u : Rec} (full : Bool)
    (hfn : ∀ s, p.fullname = some s → s ≠ "" → lookup "fullName" u = some (.str s))
    (hln : ∀ s, p.lastname = some s → s ≠ "" → lookup "lastName" u = some (.str s))
    (hfr : ∀ s, p.firstname = some s → s ≠ "" → lookup "firstName" u = some (.str s))
    (hem : ∀ s, p.email = some s → s ≠ "" → lookup "emailAddress" u = some (.str s))
    (hrl : ∀ l, p.roles = some l → lookup "role" u = some (.list (l.map .str)))
    (h1 : p.remove_phone = false)
    (hph : ∀ n, p.phone = some n → n ≠ 0 →
      ∃ fs, lookup "phone" u = some (.obj fs) ∧ fs ≠ [] ∧
        lookup "number" fs = some (.str (toString n)))
    (hpc : ∀ c, p.phone_country_code = some c → c ≠ 0 →
      ∀ fs, lookup "phone" u = some (.obj fs) → fs ≠ [] →
        lookup "countryCode" fs = some (.str (toString c)))
    (hwt : ∀ v, lookup "phone" u = some v → v.truthy = true →
      ∃ fs, v = .obj fs)
    (hdp : ∀ s, p.department = some s → s ≠ "" → lookup "department" u = some (.str s))
    (hc1 : ∀ s, p.custom_1 = some s → s ≠ "" → lookup "customDefined1" u = some (.str s))
    (hc2 : ∀ s, p.custom_2 = some s → s ≠ "" → lookup "customDefined2" u = some (.str s)) :
    newUserOf p u full = u := by
  unfold newUserOf nameSteps
  rw [strStep_keep hfn, strStep_keep hln, strStep_keep hfr, strStep_keep hem,
    roleStep_keep full hrl, phoneStep_keep h1 hph hpc hwt,
    strStep_keep hdp, strStep_keep hc1]
  exact strStep_keep hc2

/-- Where the role key of the candidate record comes from: the roles
parameter under full_compare when truthy, the observed value otherwise. -/
theorem lookup_newUserOf_role (p : Params) (u : Rec) (full : Bool) :
    lookup "role" (newUserOf p u full) =
      if full && truthyL p.roles then
        some (.list ((p.roles.getD []).map .str))
      else lookup "role" u := by
  unfold newUserOf nameSteps
  rw [lookup_strStep_skip _ (Or.inl (by decide)),
    lookup_strStep_skip _ (Or.inl (by decide)),
    lookup_strStep_skip _ (Or.inl (by decide)),
    lookup_phoneStep_skip _ (Or.inl (by decide))]
  unfold roleStep
  split
  · rw [lookup_setKey]
    simp
  · rw [lookup_strStep_skip _ (Or.inl (by decide)),
      lookup_strStep_skip _ (Or.inl (by decide)),
      lookup_strStep_skip _ (Or.inl (by decide)),
      lookup_strStep_skip _ (Or.inl (by decide))]

/-! ## Role comparison lemmas -/

theorem jcontains_map_str {l : List String} {x : String} :
    jcontains (l.map .str) (.str x) = true ↔ x ∈ l := by
  simp [jcontains, List.any_eq_true, JVal.beq]

theorem roleSetEq_map_str {l1 l2 : List String} (hs : ∀ x, x ∈ l1 ↔ x ∈ l2) :
    roleSetEq (.list (l1.map .str)) (.list (l2.map .str)) = true := by
  simp only [roleSetEq, Bool.and_eq_true, List.all_eq_true]
  constructor
  · intro v hv
    obtain ⟨x, hx, rfl⟩ := List.mem_map.mp hv
    exact jcontains_map_str.mpr ((hs x).mp hx)
  · intro v hv
    obtain ⟨x, hx, rfl⟩ := List.mem_map.mp hv
    exact jcontains_map_str.mpr ((hs x).mpr hx)

theorem fieldChanged_role_null (rv : JVal) :
    fieldChanged "role" (some .null) (some rv) = false := by
  simp [fieldChanged]

theorem fieldChanged_role_set {l1 l2 : List String} (hs : ∀ x, x ∈ l1 ↔ x ∈ l2) :
    fieldChanged "role" (some (.list (l1.map .str))) (some (.list (l2.map .str))) = false := by
  simp [fieldChanged, roleSetEq_map_str hs]

theorem compare_user_roles_eval (p : Params) (rv : JVal) :
    compare_user_roles p rv =
      if fieldChanged "role" (some (rolesJV p.roles)) (some rv) = true
      then ⟨true, ["role"]⟩ else ⟨false, []⟩ := by
  unfold compare_user_roles compare_json
  have hl1 : lookup "role" [("role", rolesJV p.roles)] = some (rolesJV p.roles) := by
    simp [lookup]
  have hl2 : lookup "role" [("role", rv)] = some rv := by simp [lookup]
  simp only [keysOf, List.map_cons, List.map_nil, List.cons_append, List.nil_append,
    show (["role", "role"] : List String).dedup = ["role"] from by decide,
    List.filter_cons, List.filter_nil, hl1, hl2]
  cases hf : fieldChanged "role" (some (rolesJV p.roles)) (some rv) <;> simp [hf]

/-! ## Shape of the write-call list for an existing user -/

theorem runPresent_existing_split (p : Params) (u rf : Rec) :
    (runPresent p false (some u) rf).1 =
      (if truthyS p.new_password then
        [WriteCall.changeUserPasswordC (lookup "userName" u) p.new_password] else [])
      ++ (if (compare_user_roles p ((lookup "role" u).getD .null)).changes then
            [WriteCall.setUserRolesC p.username p.roles]
            ++ (if (compare_user p rf false).changes then [updateUserCall p rf] else [])
          else
            (if (compare_user p u false).changes then [updateUserCall p u] else [])) := by
  simp only [runPresent]
  split_ifs <;> simp_all

/-! ## Membership in the write-call list of an existing-user run -/

theorem isNone_false_of_ne_none {α : Type} {o : Option α} (h : o ≠ none) :
    o.isNone = false := by
  cases o with
  | none => exact absurd rfl h
  | some a => rfl

theorem runPresent_existing_mem (p : Params) (u rf : Rec) (cm : Bool)
    {c : WriteCall} (hc : c ∈ (runPresent p cm (some u) rf).1) :
    c = WriteCall.changeUserPasswordC (lookup "userName" u) p.new_password ∨
    c = WriteCall.setUserRolesC p.username p.roles ∨
    c = updateUserCall p rf ∨ c = updateUserCall p u := by
  cases cm with
  | true =>
      simp only [runPresent, if_true] at hc
      split at hc
      · simp only [List.mem_singleton] at hc
        exact Or.inl hc
      · simp at hc
  | false =>
      rw [runPresent_existing_split p u rf] at hc
      simp only [List.mem_append] at hc
      rcases hc with hc | hc
      · split at hc
        · simp only [List.mem_singleton] at hc
          exact Or.inl hc
        · simp at hc
      · split at hc
        · simp only [List.mem_append, List.mem_singleton] at hc
          rcases hc with hc | hc
          · exact Or.inr (Or.inl hc)
          · split at hc
            · simp only [List.mem_singleton] at hc
              exact Or.inr (Or.inr (Or.inl hc))
            · simp at hc
        · split at hc
          · simp only [List.mem_singleton] at hc
            exact Or.inr (Or.inr (Or.inr hc))
          · simp at hc

/-! ## Claim theorems -/

/-- C2: evidence of the code bug at the failing input: in check mode,
with an existing user and new_password set, main still issues the
change_user_password write call, because change_password (lines 543-544)
runs before the check-mode exit inside compare_user (lines 458-460);
the computed compare result is then reported.  The claim that check mode
issues no write call is violated here. -/
theorem claimC2_check_mode_still_writes_password :
    (runPresent pNewPw true (some uJoey) uJoey).1 =
      [WriteCall.changeUserPasswordC (some (.str "joey")) (some "x")] ∧
    (runPresent pNewPw true (some uJoey) uJoey).2 =
      .exitCompare (compare_user pNewPw uJoey true) := by
  constructor
  · simp [runPresent, pNewPw, uJoey, truthyS, lookup,
      show "x".isEmpty = false from by decide]
  · simp [runPresent, pNewPw, uJoey, truthyS, lookup,
      show "x".isEmpty = false from by decide]

/-- C3: with state=present and a valid desired state, an absent observed
user yields exactly one create_user call whose payload is the desired
parameters verbatim and an exit with changed=true (no Delta enters the
result); an existing observed user never yields a create_user call, in
any mode. -/
theorem claimC3_create_only_when_absent (p : Params) (rf : Rec) :
    ((p.username ≠ none ∧ p.password ≠ none ∧ p.fullname ≠ none ∧
      p.firstname ≠ none ∧ p.lastname ≠ none ∧ p.email ≠ none ∧
      (p.phone ≠ none → p.phone_country_code ≠ none)) →
      runPresent p false none rf =
        ([.createUserC p.username p.password p.roles p.fullname p.firstname
            p.lastname p.email p.phone p.phone_country_code p.department
            p.custom_1 p.custom_2], .exitChanged true)) ∧
    (∀ (u : Rec) (cm : Bool), ∀ c ∈ (runPresent p cm (some u) rf).1,
      c.isCreate = false) := by
  constructor
  · rintro ⟨h1, h2, h3, h4, h5, h6, h7⟩
    simp only [runPresent, isNone_false_of_ne_none h1,
      isNone_false_of_ne_none h2, isNone_false_of_ne_none h3,
      isNone_false_of_ne_none h4, isNone_false_of_ne_none h5,
      isNone_false_of_ne_none h6]
    cases hp : p.phone with
    | none => simp
    | some n =>
        have := isNone_false_of_ne_none (h7 (by simp [hp]))
        simp [this]
  · intro u cm c hc
    rcases runPresent_existing_mem p u rf cm hc with h | h | h | h <;>
      subst h <;> rfl

/-- Witness for C3: valid creation parameters with no observed user give
the verbatim create call, and an existing user gives no create call. -/
theorem claimC3_witness :
    runPresent pCreate false none [] =
      ([.createUserC (some "joey") (some "pw") (some ["network"])
          (some "Joey JoeJoe") (some "Joey") (some "JoeJoe")
          (some "j@x.com") none none none none none],
        .exitChanged true) ∧
    ∀ c ∈ (runPresent pCreate false (some uJoey) []).1, c.isCreate = false := by
  constructor
  · exact (claimC3_create_only_when_absent pCreate []).1
      ⟨by simp [pCreate], by simp [pCreate], by simp [pCreate],
        by simp [pCreate], by simp [pCreate], by simp [pCreate],
        fun h => absurd (rfl : pCreate.phone = none) h⟩
  · exact fun c hc => (claimC3_create_only_when_absent pCreate []).2 uJoey false c hc

/-- C7: for one existing user the write calls are always issued in the
fixed order password change, role update, payload update: the call list
is sorted by that rank, so in particular a role update always precedes a
payload update. -/
theorem claimC7_fixed_apply_order (p : Params) (u rf : Rec) (cm : Bool) :
    ((runPresent p cm (some u) rf).1).Pairwise
      (fun a b => kindRank a ≤ kindRank b) := by
  cases cm with
  | true =>
      simp only [runPresent, if_true]
      split <;> simp
  | false =>
      rw [runPresent_existing_split p u rf]
      split_ifs <;>
        simp [kindRank, updateUserCall, List.pairwise_cons, List.pairwise_append]

/-- C1: Role comparison is order-independent: whenever the desired roles
parameter and the observed role list hold the same role names in any
orders, compare_user_roles reports no change, main issues no
set_user_roles call, and the role field never enters the Delta of
compare_user. -/
theorem claimC1_role_order_independent (p : Params) (u rf : Rec)
    (l1 l2 : List String)
    (hp : p.roles = some l1)
    (hu : lookup "role" u = some (.list (l2.map .str)))
    (hs : ∀ x, x ∈ l1 ↔ x ∈ l2) :
    (compare_user_roles p ((lookup "role" u).getD .null)).changes = false ∧
    "role" ∉ (compare_user p u true).deltaKeys ∧
    ∀ c ∈ (runPresent p false (some u) rf).1, c.isSetRoles = false := by
  have hfc : fieldChanged "role" (some (rolesJV p.roles))
      (some ((lookup "role" u).getD .null)) = false := by
    rw [hp, hu]
    simp only [rolesJV, Option.getD_some]
    exact fieldChanged_role_set hs
  have h1 : (compare_user_roles p ((lookup "role" u).getD .null)).changes = false := by
    rw [compare_user_roles_eval, hfc]
    simp
  have h2 : "role" ∉ (compare_user p u true).deltaKeys := by
    apply compare_json_deltaKeys_not_mem
    rw [lookup_newUserOf_role, hp, hu]
    cases l1 with
    | nil =>
        have hl2 : l2 = [] := by
          apply List.eq_nil_iff_forall_not_mem.mpr
          intro x hx
          exact (List.not_mem_nil x) ((hs x).mpr hx)
        subst hl2
        simpa [truthyL] using fieldChanged_self "role" (some (.list []))
    | cons a t =>
        simpa [truthyL] using fieldChanged_role_set hs
  refine ⟨h1, h2, ?_⟩
  intro c hc
  rw [runPresent_existing_split, h1] at hc
  simp only [Bool.false_eq_true, if_false, List.mem_append] at hc
  rcases hc with hc | hc
  · cases hx : truthyS p.new_password
    · rw [hx] at hc
      simp at hc
    · rw [hx] at hc
      simp only [if_true, List.mem_singleton] at hc
      subst hc
      rfl
  · split at hc
    · simp only [List.mem_singleton] at hc
      subst hc
      rfl
    · simp at hc

/-- Witness for C1 at concrete role lists in the two orders. -/
theorem claimC1_witness :
    (compare_user_roles pRoles ((lookup "role" uRoles).getD .null)).changes = false ∧
    "role" ∉ (compare_user pRoles uRoles true).deltaKeys ∧
    ∀ c ∈ (runPresent pRoles false (some uRoles) uRoles).1, c.isSetRoles = false :=
  claimC1_role_order_independent pRoles uRoles uRoles ["b", "a"] ["a", "b"]
    rfl rfl (fun x => by simp [or_comm])

/-- C4: idempotence: with an existing observed user and a desired state
whose every truthy field equals the corresponding observed value (role
list included), no new_password and no remove_phone flag, the run issues
no write call and exits with changed=false. -/
theorem claimC4_idempotent (p : Params) (u rf : Rec)
    (hfn : ∀ s, p.fullname = some s → s ≠ "" → lookup "fullName" u = some (.str s))
    (hln : ∀ s, p.lastname = some s → s ≠ "" → lookup "lastName" u = some (.str s))
    (hfr : ∀ s, p.firstname = some s → s ≠ "" → lookup "firstName" u = some (.str s))
    (hem : ∀ s, p.email = some s → s ≠ "" → lookup "emailAddress" u = some (.str s))
    (hrl : ∀ l, p.roles = some l → lookup "role" u = some (.list (l.map .str)))
    (hrm : p.remove_phone = false)
    (hph : ∀ n, p.phone = some n → n ≠ 0 →
      ∃ fs, lookup "phone" u = some (.obj fs) ∧ fs ≠ [] ∧
        lookup "number" fs = some (.str (toString n)))
    (hpc : ∀ c, p.phone_country_code = some c → c ≠ 0 →
      ∀ fs, lookup "phone" u = some (.obj fs) → fs ≠ [] →
        lookup "countryCode" fs = some (.str (toString c)))
    (hwt : ∀ v, lookup "phone" u = some v → v.truthy = true →
      ∃ fs, v = .obj fs)
    (hdp : ∀ s, p.department = some s → s ≠ "" → lookup "department" u = some (.str s))
    (hc1 : ∀ s, p.custom_1 = some s → s ≠ "" → lookup "customDefined1" u = some (.str s))
    (hc2 : ∀ s, p.custom_2 = some s → s ≠ "" → lookup "customDefined2" u = some (.str s))
    (hnp : truthyS p.new_password = false) :
    runPresent p false (some u) rf = ([], .exitChanged false) := by
  have hnew : ∀ full, newUserOf p u full = u := fun full =>
    newUserOf_keep full hfn hln hfr hem hrl hrm hph hpc hwt hdp hc1 hc2
  have hcu : ∀ full, compare_user p u full = ⟨false, []⟩ := fun full => by
    unfold compare_user
    rw [hnew full]
    exact compare_json_self u
  have hroles : (compare_user_roles p ((lookup "role" u).getD .null)).changes = false := by
    rw [compare_user_roles_eval]
    cases hr : p.roles with
    | none => simp [rolesJV, fieldChanged_role_null]
    | some l =>
        rw [hrl l hr]
        simp [rolesJV, fieldChanged_role_set (fun x => Iff.rfl)]
  simp [runPresent, hnp, hroles, hcu false]

/-- Witness for C4: a desired state equal to the observed user changes
nothing. -/
theorem claimC4_witness :
    runPresent pSame false (some uFull) uFull = ([], .exitChanged false) :=
  claimC4_idempotent pSame uFull uFull
    (fun s hs _ => by simp [pSame] at hs; subst hs; rfl)
    (fun s hs _ => by simp [pSame] at hs)
    (fun s hs _ => by simp [pSame] at hs)
    (fun s hs _ => by simp [pSame] at hs)
    (fun l hl => by simp [pSame] at hl; subst hl; rfl)
    rfl
    (fun n hn _ => by
      simp [pSame] at hn
      subst hn
      exact ⟨[("number", .str "555"), ("countryCode", .str "1")], rfl, by simp, rfl⟩)
    (fun c hc _ fs hfs _ => by
      simp [pSame] at hc
      subst hc
      simp only [uFull] at hfs
      simp [lookup] at hfs
      subst hfs
      rfl)
    (fun v hv _ => by
      simp only [uFull] at hv
      simp [lookup] at hv
      exact ⟨_, hv.symm⟩)
    (fun s hs _ => by simp [pSame] at hs)
    (fun s hs _ => by simp [pSame] at hs)
    (fun s hs _ => by simp [pSame] at hs)
    rfl

/-- C5: frame property: any key the desired parameters leave untouched
(its governing parameter absent or falsy, or a key outside the parameter
set altogether) keeps its observed value in the candidate merged record
and never appears in the Delta of compare_user. -/
theorem claimC5_absent_fields_untouched (p : Params) (u : Rec) (full : Bool)
    (k : String) (h : touchesKey p k = false) :
    lookup k (newUserOf p u full) = lookup k u ∧
    k ∉ (compare_user p u full).deltaKeys := by
  have h1 := lookup_newUserOf_untouched p u full h
  refine ⟨h1, ?_⟩
  unfold compare_user
  apply compare_json_deltaKeys_not_mem
  rw [h1]
  exact fieldChanged_self k (lookup k u)

/-- Witness for C5: an omitted email is neither cleared nor reported. -/
theorem claimC5_witness :
    lookup "emailAddress" (newUserOf pBase uEmail true) =
      lookup "emailAddress" uEmail ∧
    "emailAddress" ∉ (compare_user pBase uEmail true).deltaKeys :=
  claimC5_absent_fields_untouched pBase uEmail true "emailAddress" (by decide)

/-- C6: the write-only password never participates in comparison: when
the observed user record holds no password key, no password key appears
in the Delta of compare_user; and a truthy new_password always issues a
change_user_password call, whatever the Delta contains. -/
theorem claimC6_password_write_only (p : Params) (u rf : Rec) (full : Bool)
    (hpw : "password" ∉ keysOf u)
    (hnp : truthyS p.new_password = true) :
    "password" ∉ (compare_user p u full).deltaKeys ∧
    WriteCall.changeUserPasswordC (lookup "userName" u) p.new_password
      ∈ (runPresent p false (some u) rf).1 := by
  constructor
  · unfold compare_user
    apply compare_json_deltaKeys_not_mem
    have hu : lookup "password" u = none := lookup_eq_none_of_not_mem_keys hpw
    have ht : touchesKey p "password" = false := by simp [touchesKey]
    rw [lookup_newUserOf_untouched p u full ht, hu]
    rfl
  · rw [runPresent_existing_split, hnp]
    simp

/-- Witness for C6: new_password set against a user with no password
field. -/
theorem claimC6_witness :
    "password" ∉ (compare_user pNewPw uJoey true).deltaKeys ∧
    WriteCall.changeUserPasswordC (lookup "userName" uJoey) pNewPw.new_password
      ∈ (runPresent pNewPw false (some uJoey) uJoey).1 :=
  claimC6_password_write_only pNewPw uJoey uJoey true (by decide) (by decide)

/-- C8: invalid input fails with the validation message before any write
call: a missing required creation field fails create_user with no call
issued; a present phone without a country code likewise; and a missing
username on delete fails delete_user before remove_user. -/
theorem claimC8_invalid_input_fails_first (p : Params) (u rf : Rec) :
    ((p.username = none ∨ p.password = none ∨ p.fullname = none ∨
      p.firstname = none ∨ p.lastname = none ∨ p.email = none) →
      runPresent p false none rf =
        ([], .failJson "A valid value for username, password, fullname, firstname, lastname and email are required")) ∧
    ((p.username ≠ none ∧ p.password ≠ none ∧ p.fullname ≠ none ∧
      p.firstname ≠ none ∧ p.lastname ≠ none ∧ p.email ≠ none ∧
      p.phone ≠ none ∧ p.phone_country_code = none) →
      runPresent p false none rf =
        ([], .failJson "phone_country_code is required when a value for phone is present")) ∧
    (p.username = none →
      runAbsent p false (some u) =
        ([], .failJson "A valid username is required")) := by
  refine ⟨?_, ?_, ?_⟩
  · intro h
    rcases h with h | h | h | h | h | h <;> simp [runPresent, h]
  · rintro ⟨h1, h2, h3, h4, h5, h6, h7, h8⟩
    cases hp : p.phone with
    | none => exact absurd hp h7
    | some n =>
        simp [runPresent, isNone_false_of_ne_none h1,
          isNone_false_of_ne_none h2, isNone_false_of_ne_none h3,
          isNone_false_of_ne_none h4, isNone_false_of_ne_none h5,
          isNone_false_of_ne_none h6, hp, h8]
  · intro h
    simp [runAbsent, h]

/-- Witness for C8: creation without an email fails, deletion without a
username fails, both without any write call. -/
theorem claimC8_witness :
    runPresent pNoEmail false none [] =
      ([], .failJson "A valid value for username, password, fullname, firstname, lastname and email are required") ∧
    runAbsent pNoUser false (some uJoey) =
      ([], .failJson "A valid username is required") :=
  ⟨(claimC8_invalid_input_fails_first pNoEmail uJoey []).1
      (Or.inr (Or.inr (Or.inr (Or.inr (Or.inr rfl))))),
    (claimC8_invalid_input_fails_first pNoUser uJoey []).2.2 rfl⟩

/-! ## Phone handling lemmas -/

theorem lookup_nameSteps_phone (p : Params) (u : Rec) (full : Bool) :
    lookup "phone" (nameSteps p u full) = lookup "phone" u := by
  unfold nameSteps
  rw [lookup_roleStep_skip _ (Or.inl (by decide)),
    lookup_strStep_skip _ (Or.inl (by decide)),
    lookup_strStep_skip _ (Or.inl (by decide)),
    lookup_strStep_skip _ (Or.inl (by decide)),
    lookup_strStep_skip _ (Or.inl (by decide))]

theorem lookup_newUserOf_phone (p : Params) (u : Rec) (full : Bool) :
    lookup "phone" (newUserOf p u full) =
      lookup "phone" (phoneStep p (nameSteps p u full)) := by
  unfold newUserOf
  rw [lookup_strStep_skip _ (Or.inl (by decide)),
    lookup_strStep_skip _ (Or.inl (by decide)),
    lookup_strStep_skip _ (Or.inl (by decide))]

theorem ne_nil_of_lookup_some {fs : Rec} {k : String} {v : JVal}
    (h : lookup k fs = some v) : fs ≠ [] := by
  intro he
  subst he
  simp [lookup] at h

theorem phoneStep_coerces (p : Params) (r : Rec)
    (h1 : p.remove_phone = false) {n : Int} (hn : p.phone = some n) (hnz : n ≠ 0)
    (hwt : ∀ v, lookup "phone" r = some v → v.truthy = true → ∃ fs, v = .obj fs) :
    ∃ fs, lookup "phone" (phoneStep p r) = some (.obj fs) ∧
      lookup "number" fs = some (.str (toString n)) ∧
      (∀ c, p.phone_country_code = some c → c ≠ 0 →
        lookup "countryCode" fs = some (.str (toString c))) := by
  have hnum : ∃ fs1, lookup "phone" (phoneNumStep p r) = some (.obj fs1) ∧
      lookup "number" fs1 = some (.str (toString n)) := by
    unfold phoneNumStep
    have hti : truthyI p.phone = true := by rw [hn]; simp [truthyI, hnz]
    rw [hti, if_pos rfl, hn]
    simp only [Option.getD_some]
    cases hl : lookup "phone" r with
    | none =>
        simp only [Option.getD_none, JVal.truthy, Bool.false_eq_true, if_false]
        unfold setObjField
        simp only [lookup_setKey, if_pos]
        refine ⟨setKey [] "number" (.str (toString n)), ?_, ?_⟩
        · simp [lookup_setKey]
        · simp [setKey, lookup]
    | some v =>
        simp only [Option.getD_some]
        by_cases htv : v.truthy = true
        · rw [if_pos htv]
          obtain ⟨fs0, rfl⟩ := hwt v hl htv
          unfold setObjField
          rw [hl]
          refine ⟨setKey fs0 "number" (.str (toString n)), ?_, ?_⟩
          · simp [lookup_setKey]
          · simp [lookup_setKey]
        · rw [if_neg htv]
          unfold setObjField
          simp only [lookup_setKey, if_pos]
          refine ⟨setKey [] "number" (.str (toString n)), ?_, ?_⟩
          · simp [lookup_setKey]
          · simp [setKey, lookup]
  obtain ⟨fs1, hf1, hn1⟩ := hnum
  unfold phoneStep
  rw [h1]
  simp only [Bool.false_eq_true, if_false]
  unfold phonePccStep
  cases hc : p.phone_country_code with
  | none =>
      simp only [truthyI, Bool.false_eq_true, if_false]
      exact ⟨fs1, hf1, hn1, fun c hcc => by cases hcc⟩
  | some c =>
      by_cases hcz : c = 0
      · subst hcz
        simp only [truthyI, Bool.false_eq_true, if_false, beq_self_eq_true,
          Bool.not_true]
        exact ⟨fs1, hf1, hn1, fun c2 hc2 hnz2 => by
          injection hc2 with h
          exact absurd h.symm hnz2⟩
      · have hti : truthyI (some c) = true := by simp [truthyI, hcz]
        rw [hti, if_pos rfl, hf1]
        have hfs1ne : fs1 ≠ [] := ne_nil_of_lookup_some hn1
        have htr : (JVal.obj fs1).truthy = true := by
          simp [JVal.truthy, hfs1ne]
        rw [Option.getD_some, htr, if_pos rfl]
        unfold setObjField
        rw [hf1]
        refine ⟨setKey fs1 "countryCode" (.str (toString c)), ?_, ?_, ?_⟩
        · simp [lookup_setKey]
        · rw [lookup_setKey]
          simp [hn1]
        · intro c2 hc2 _
          injection hc2 with h
          subst h
          simp [lookup_setKey]

/-- Where the phone key of the candidate record comes from when the
remove flag is set: a truthy observed phone is popped, anything else is
left alone; the desired phone values are never consulted. -/
theorem lookup_newUserOf_phone_removed (p : Params) (u : Rec) (full : Bool)
    (hrm : p.remove_phone = true) :
    lookup "phone" (newUserOf p u full) =
      if ((lookup "phone" u).getD .null).truthy then none
      else lookup "phone" u := by
  rw [lookup_newUserOf_phone]
  unfold phoneStep
  rw [hrm]
  simp only [if_true]
  rw [lookup_nameSteps_phone]
  split
  · simp [lookup_popKey]
  · exact lookup_nameSteps_phone p u full

/-- C9 counterexample: the claim says the remove-phone flag removes the
nested phone object for every observed user, but an observed user whose
phone value is a present empty object keeps its phone entry, because
line 440 only pops a truthy phone. -/
theorem claimC9_counterexample :
    pRemovePhone.remove_phone = true ∧
    lookup "phone" (newUserOf pRemovePhone uEmptyPhone true) =
      some (.obj []) := by
  constructor
  · rfl
  · simp [newUserOf, nameSteps, strStep, roleStep, phoneStep, phoneNumStep,
      phonePccStep, pRemovePhone, uEmptyPhone, truthyS, truthyI, truthyL,
      lookup, JVal.truthy]

/-- C9 amended: when the remove-phone flag is set, a truthy observed
phone object is removed entirely and a falsy one is left unchanged, the
desired phone values being ignored either way; when the flag is unset
and the desired phone number is truthy, the candidate phone is the
nested object holding the stringified number, with the stringified
country code added when that parameter is truthy too (assuming the
observed phone value, when truthy, is an object, as the API returns). -/
theorem claimC9_phone_removal_and_coercion (p : Params) (u : Rec) (full : Bool) :
    (p.remove_phone = true →
      lookup "phone" (newUserOf p u full) =
        (if ((lookup "phone" u).getD .null).truthy then none
         else lookup "phone" u)) ∧
    (p.remove_phone = false → ∀ n, p.phone = some n → n ≠ 0 →
      (∀ v, lookup "phone" u = some v → v.truthy = true → ∃ fs, v = .obj fs) →
      ∃ fs, lookup "phone" (newUserOf p u full) = some (.obj fs) ∧
        lookup "number" fs = some (.str (toString n)) ∧
        (∀ c, p.phone_country_code = some c → c ≠ 0 →
          lookup "countryCode" fs = some (.str (toString c)))) := by
  constructor
  · intro hrm
    exact lookup_newUserOf_phone_removed p u full hrm
  · intro hrm n hn hnz hwt
    rw [lookup_newUserOf_phone]
    apply phoneStep_coerces p _ hrm hn hnz
    intro v hv htv
    rw [lookup_nameSteps_phone] at hv
    exact hwt v hv htv

/-- Witness for C9 amended: a truthy phone is removed under the flag,
and a fresh desired phone is coerced to the nested string form. -/
theorem claimC9_witness :
    lookup "phone" (newUserOf pRemovePhone uFull true) =
      (if ((lookup "phone" uFull).getD .null).truthy then none
       else lookup "phone" uFull) ∧
    ∃ fs, lookup "phone" (newUserOf pPhone uJoey true) = some (.obj fs) ∧
      lookup "number" fs = some (.str (toString (12345 : Int))) ∧
      (∀ c, pPhone.phone_country_code = some c → c ≠ 0 →
        lookup "countryCode" fs = some (.str (toString c))) :=
  ⟨(claimC9_phone_removal_and_coercion pRemovePhone uFull true).1 rfl,
    (claimC9_phone_removal_and_coercion pPhone uJoey true).2 rfl 12345 rfl
      (by decide)
      (fun v hv _ => by simp [uJoey, lookup] at hv)⟩

/-- C10 counterexample: the claim says an empty role list can never be
applied through the update path, but main passes the raw roles parameter
to compare_user_roles without a truthiness check, so an explicitly empty
role list against an observed role produces a set_user_roles write call
carrying the empty list. -/
theorem claimC10_counterexample :
    (runPresent pFalsy false (some uOneRole) uOneRole).1 =
      [WriteCall.setUserRolesC (some "u") (some [])] := by
  simp [runPresent, pFalsy, uOneRole, truthyS, lookup, compare_user_roles,
    compare_user, compare_json, keysOf, newUserOf, nameSteps, strStep,
    roleStep, phoneStep, phoneNumStep, phonePccStep, truthyL, truthyI,
    rolesJV, fieldChanged, roleSetEq, jcontains, JVal.beq, JVal.truthy,
    List.filter_cons, fieldChanged_self,
    show "".isEmpty = true from by decide,
    show (["role", "role"] : List String).dedup = ["role"] from by decide,
    show (["userName", "role", "userName", "role"] : List String).dedup
      = ["userName", "role"] from by decide]

/-- C10 amended: a falsy desired value (empty email string, phone number
zero, empty role list) is skipped by compare_user exactly like an absent
field: it never overwrites the candidate record and never produces a
Delta entry, so it cannot be applied through the payload-update path;
but the role-update path ignores truthiness, so an explicitly empty role
list set against a non-empty observed role list is still applied through
set_user_roles. -/
theorem claimC10_falsy_values (p : Params) (u rf : Rec) (full : Bool) :
    (p.email = some "" →
      lookup "emailAddress" (newUserOf p u full) = lookup "emailAddress" u ∧
      "emailAddress" ∉ (compare_user p u full).deltaKeys) ∧
    (p.phone = some 0 → p.remove_phone = false →
      truthyI p.phone_country_code = false →
      lookup "phone" (newUserOf p u full) = lookup "phone" u ∧
      "phone" ∉ (compare_user p u full).deltaKeys) ∧
    (p.roles = some [] →
      lookup "role" (newUserOf p u full) = lookup "role" u ∧
      "role" ∉ (compare_user p u full).deltaKeys) ∧
    (p.roles = some [] → ∀ x xs,
      lookup "role" u = some (.list (JVal.str x :: xs)) →
      WriteCall.setUserRolesC p.username p.roles
        ∈ (runPresent p false (some u) rf).1) := by
  have frame : ∀ k, touchesKey p k = false →
      lookup k (newUserOf p u full) = lookup k u ∧
      k ∉ (compare_user p u full).deltaKeys := by
    intro k hk
    have h1 := lookup_newUserOf_untouched p u full hk
    refine ⟨h1, ?_⟩
    unfold compare_user
    apply compare_json_deltaKeys_not_mem
    rw [h1]
    exact fieldChanged_self k (lookup k u)
  refine ⟨?_, ?_, ?_, ?_⟩
  · intro he
    exact frame "emailAddress"
      (by simp [touchesKey, he, truthyS, show "".isEmpty = true from by decide])
  · intro hp hrm hcc
    exact frame "phone" (by
      simp [touchesKey, hp, hrm, hcc,
        show truthyI (some 0) = false from by decide])
  · intro hr
    exact frame "role" (by simp [touchesKey, hr, truthyL])
  · intro hr x xs hu
    have hch : (compare_user_roles p ((lookup "role" u).getD .null)).changes = true := by
      rw [compare_user_roles_eval, hr, hu]
      simp only [Option.getD_some]
      have : fieldChanged "role" (some (rolesJV (some [])))
          (some (.list (JVal.str x :: xs))) = true := by
        simp [rolesJV, fieldChanged, roleSetEq, jcontains]
      simp [this]
    rw [runPresent_existing_split, hch]
    simp

/-- Witness for C10 amended: empty email, phone 0 and empty roles leave
the candidate and Delta alone, yet the empty role list is applied. -/
theorem claimC10_witness :
    (lookup "emailAddress" (newUserOf pFalsy uOneRole true) =
      lookup "emailAddress" uOneRole ∧
      "emailAddress" ∉ (compare_user pFalsy uOneRole true).deltaKeys) ∧
    WriteCall.setUserRolesC pFalsy.username pFalsy.roles
      ∈ (runPresent pFalsy false (some uOneRole) uOneRole).1 :=
  ⟨(claimC10_falsy_values pFalsy uOneRole uOneRole true).1 rfl,
    (claimC10_falsy_values pFalsy uOneRole uOneRole true).2.2.2 rfl
      "network" [] rfl⟩

end UserModule
